import Mathlib

/-!
# Frame tick dispatcher of the Loom SDK

A shallow embedding of `loom_tick` from
`loom/engine/bindings/loom/lmApplicationTasks.cpp`.

The routine is a straight-line sequence of calls into other subsystems,
guarded by a few reads of process-wide state.  One invocation is modelled as
a function of

* the value of `gLoomPaused` before the invocation,
* the values the invocation reads from its surroundings (`Frame`), and
* an oracle telling which outgoing calls raise a failure instead of
  returning (`throws`),

and it yields the value of `gLoomPaused` afterwards, the outgoing calls in
the order in which they were made, and whether a failure left the routine.

The getters `LoomApplication::getReloadQueued()`, `LoomApplication::getRootVM()`
and `LoomApplicationConfig::waitForDebugger()` and the pointer
`Loom2D::Stage::smMainStage` are reads: their values are fields of `Frame`
and they do not appear among the outgoing calls.  `getReloadQueued()` is
called at two places of the routine, so it has two fields.  The definitions
of `LOOM_PROFILE_START` and `LOOM_PROFILE_END` are not part of the file; each
use is recorded as one outgoing call.
-/

namespace Loom

/-- A nullable `LSLuaState *`; `none` is `NULL`. -/
abbrev LSLuaStatePtr := Option Nat

/-- A nullable `Loom2D::Stage *`; `none` is `NULL`. -/
abbrev StagePtr := Option Nat

/-- The outgoing calls of `loom_tick`, one constructor per call site. -/
inductive Call where
  /-- The call `loom_thread_sleep(ms)`. -/
  | loom_thread_sleep (ms : Int)
  /-- The call `LOOM_PROFILE_START(loom_tick)`. -/
  | LOOM_PROFILE_START
  /-- The call `NativeDelegate::markMainThread()`. -/
  | markMainThread
  /-- The call `NativeDelegate::executeDeferredCalls(vm->VM())`, carrying the pointer that is dereferenced. -/
  | executeDeferredCalls (vm : LSLuaStatePtr)
  /-- The call `performance_tick()`. -/
  | performance_tick
  /-- The call `platform_getMilliseconds()`. -/
  | platform_getMilliseconds
  /-- The call `LoomApplication::reloadMainAssembly()`. -/
  | reloadMainAssembly
  /-- The call `vm->invokeStaticMethod(className, methodName)`, carrying the pointer that is dereferenced. -/
  | invokeStaticMethod (vm : LSLuaStatePtr) (className methodName : String)
  /-- The call `LoomApplication::ticks.invoke()`. -/
  | ticks_invoke
  /-- The call `loom_asset_pump()`. -/
  | loom_asset_pump
  /-- The call `loom_net_pump()`. -/
  | loom_net_pump
  /-- The call `platform_HTTPUpdate()`. -/
  | platform_HTTPUpdate
  /-- The call `GFX::Texture::tick()`. -/
  | Texture_tick
  /-- The call `Loom2D::Stage::smMainStage->invokeRenderStage()`, carrying the pointer that is dereferenced. -/
  | invokeRenderStage (stage : StagePtr)
  /-- The call `finishProfilerBlock(&p)`. -/
  | finishProfilerBlock
  /-- The call `LOOM_PROFILE_END(loom_tick)`. -/
  | LOOM_PROFILE_END
  deriving DecidableEq, Repr

/-- What one invocation of `loom_tick` reads from its surroundings. -/
structure Frame where
  /-- The value read by `atomic_load32(&gLoomTicking)`. -/
  gLoomTicking : Int
  /-- The value of `LoomApplication::getReloadQueued()` as read when `vm` is resolved. -/
  reloadQueuedAtResolve : Bool
  /-- The value of `LoomApplication::getReloadQueued()` as read by the reload branch. -/
  reloadQueuedAtBranch : Bool
  /-- The value returned by `LoomApplication::getRootVM()`. -/
  getRootVM : LSLuaStatePtr
  /-- The value returned by `LoomApplicationConfig::waitForDebugger()`. -/
  waitForDebugger : Int
  /-- The pointer `Loom2D::Stage::smMainStage`. -/
  smMainStage : StagePtr

/-- The calls made so far, and whether one of them raised a failure. -/
structure Run where
  calls : List Call
  raised : Bool

/-- Nothing has been called yet. -/
def Run.start : Run := ⟨[], false⟩

/-- One outgoing call.  After a failure the rest of the routine is skipped:
the routine has no handler, so the failure leaves it at once. -/
def invoke (throws : Call → Bool) (c : Call) (r : Run) : Run :=
  if r.raised then r else ⟨r.calls ++ [c], throws c⟩

/-- The result of one invocation. -/
structure Outcome where
  /-- The value of `gLoomPaused` after the invocation. -/
  gLoomPaused : Int
  /-- The outgoing calls, in order. -/
  calls : List Call
  /-- Whether a failure left the routine. -/
  raised : Bool

/-- Every outgoing call returns. -/
def allReturn : Call → Bool := fun _ => false

/-- The routine `loom_tick`. -/
def loom_tick (throws : Call → Bool) (f : Frame) (gLoomPaused : Int) : Outcome :=
  if f.gLoomTicking < 1 then
    -- Signal that the app has really stopped execution
    let gLoomPaused := if gLoomPaused = 0 then 1 else gLoomPaused
    let r := invoke throws (.loom_thread_sleep 30) Run.start
    ⟨gLoomPaused, r.calls, r.raised⟩
  else
    let gLoomPaused := 0
    let r := invoke throws .LOOM_PROFILE_START Run.start
    let vm : LSLuaStatePtr := if f.reloadQueuedAtResolve then none else f.getRootVM
    let r := invoke throws .markMainThread r
    let r := if vm.isSome then invoke throws (.executeDeferredCalls vm) r else r
    let r := invoke throws .performance_tick r
    let r := invoke throws .platform_getMilliseconds r
    let r :=
      if f.reloadQueuedAtBranch then
        invoke throws .reloadMainAssembly r
      else if vm.isSome then
        let r :=
          if f.waitForDebugger > 0 then
            invoke throws (.invokeStaticMethod vm "system.debugger.DebuggerClient" "update") r
          else r
        invoke throws .ticks_invoke r
      else r
    let r := invoke throws .loom_asset_pump r
    let r := invoke throws .loom_net_pump r
    let r := invoke throws .platform_HTTPUpdate r
    let r := invoke throws .Texture_tick r
    let r := if f.smMainStage.isSome then invoke throws (.invokeRenderStage f.smMainStage) r else r
    let r := invoke throws .finishProfilerBlock r
    let r := invoke throws .LOOM_PROFILE_END r
    ⟨gLoomPaused, r.calls, r.raised⟩

/-- One invocation of a sequence: its failure oracle and what it reads. -/
abbrev Invocation := (Call → Bool) × Frame

/-- The value of `gLoomPaused` after consecutive invocations of `loom_tick`,
each one starting from the value the previous one left. -/
def pausedAfter (gLoomPaused : Int) : List Invocation → Int
  | [] => gLoomPaused
  | i :: rest => pausedAfter (loom_tick i.1 i.2 gLoomPaused).gLoomPaused rest

/-- The static call `vm->invokeStaticMethod("system.debugger.DebuggerClient", "update")`. -/
def debuggerUpdate (vm : LSLuaStatePtr) : Call :=
  .invokeStaticMethod vm "system.debugger.DebuggerClient" "update"

/-- Calls of the profiling instrumentation, and the time read that fills the
profiler block. -/
def Call.isProfiling : Call → Bool
  | .LOOM_PROFILE_START => true
  | .platform_getMilliseconds => true
  | .finishProfilerBlock => true
  | .LOOM_PROFILE_END => true
  | _ => false

/-- The calls of a frame with the profiling instrumentation left out. -/
def collaboratorCalls (cs : List Call) : List Call :=
  cs.filter (fun c => !c.isProfiling)

/-- Calls of `executeDeferredCalls`, on whatever pointer. -/
def Call.isExecuteDeferred : Call → Bool
  | .executeDeferredCalls _ => true
  | _ => false

/-- Calls of `invokeStaticMethod`, on whatever pointer, class and method. -/
def Call.isInvokeStatic : Call → Bool
  | .invokeStaticMethod _ _ _ => true
  | _ => false

/-- Calls of `invokeRenderStage`, on whatever pointer. -/
def Call.isRender : Call → Bool
  | .invokeRenderStage _ => true
  | _ => false

/-- Calls that drive, drain into or reload the scripting VM. -/
def Call.isVMOp : Call → Bool
  | .executeDeferredCalls _ => true
  | .invokeStaticMethod _ _ _ => true
  | .ticks_invoke => true
  | .reloadMainAssembly => true
  | _ => false

/-- The four subsystem pumps. -/
def Call.isPump : Call → Bool
  | .loom_asset_pump => true
  | .loom_net_pump => true
  | .platform_HTTPUpdate => true
  | .Texture_tick => true
  | _ => false

/-- Calls made through a `NULL` pointer. -/
def Call.derefsNull : Call → Bool
  | .executeDeferredCalls none => true
  | .invokeStaticMethod none _ _ => true
  | .invokeRenderStage none => true
  | _ => false

/-! ## The run of outgoing calls -/

theorem invoke_raised (t : Call → Bool) (c : Call) (r : Run) :
    (invoke t c r).raised = (r.raised || t c) := by
  unfold invoke
  cases h : r.raised <;> simp [h]

theorem invoke_calls (t : Call → Bool) (c : Call) (r : Run) :
    (invoke t c r).calls = if r.raised then r.calls else r.calls ++ [c] := by
  unfold invoke
  cases h : r.raised <;> simp [h]

theorem mem_invoke (t : Call → Bool) (c x : Call) (r : Run) :
    x ∈ (invoke t c r).calls ↔ x ∈ r.calls ∨ (r.raised = false ∧ x = c) := by
  rw [invoke_calls]
  cases h : r.raised <;> simp

theorem count_invoke (t : Call → Bool) (c x : Call) (r : Run) :
    (invoke t c r).calls.count x
      = r.calls.count x + if r.raised = false ∧ c = x then 1 else 0 := by
  rw [invoke_calls]
  cases h : r.raised <;> by_cases hx : c = x <;> simp [hx, List.count_append, List.count_singleton]

theorem countP_invoke (t : Call → Bool) (c : Call) (q : Call → Bool) (r : Run) :
    (invoke t c r).calls.countP q
      = r.calls.countP q + if r.raised = false ∧ q c = true then 1 else 0 := by
  rw [invoke_calls]
  cases h : r.raised <;> cases hq : q c <;> simp [hq, List.countP_append, List.countP_cons]

/-! ## The pause flag -/

theorem loom_tick_paused (t : Call → Bool) (f : Frame) (p : Int) :
    (loom_tick t f p).gLoomPaused
      = if f.gLoomTicking < 1 then (if p = 0 then 1 else p) else 0 := by
  unfold loom_tick
  split <;> rfl

theorem pausedAfter_append (p : Int) (xs ys : List Invocation) :
    pausedAfter p (xs ++ ys) = pausedAfter (pausedAfter p xs) ys := by
  induction xs generalizing p with
  | nil => rfl
  | cons i rest ih => simp [pausedAfter, ih]

theorem pausedAfter_disabled (p : Int) (fs : List Invocation)
    (hall : ∀ i ∈ fs, i.2.gLoomTicking < 1) (hne : fs ≠ []) :
    pausedAfter p fs = if p = 0 then 1 else p := by
  induction fs generalizing p with
  | nil => exact absurd rfl hne
  | cons i rest ih =>
    have hi : i.2.gLoomTicking < 1 := hall i (List.mem_cons_self _ _)
    have hrest : ∀ j ∈ rest, j.2.gLoomTicking < 1 :=
      fun j hj => hall j (List.mem_cons_of_mem _ hj)
    simp only [pausedAfter, loom_tick_paused, hi, if_true]
    by_cases hr : rest = []
    · subst hr
      rfl
    · rw [ih _ hrest hr]
      by_cases hp : p = 0
      · simp [hp]
      · simp [hp]

theorem pausedAfter_flag (fs : List Invocation) :
    pausedAfter 0 fs = 0 ∨ pausedAfter 0 fs = 1 := by
  induction fs using List.reverseRecOn with
  | nil => exact Or.inl rfl
  | append_singleton xs i ih =>
    rw [pausedAfter_append]
    simp only [pausedAfter, loom_tick_paused]
    rcases ih with h | h <;> rw [h] <;> split <;> simp

/-! ## The gate -/

/-- C1: when ticking is disabled (`gLoomTicking < 1`), whatever the prior value
of `gLoomPaused`, the reload flag, the root VM, the main stage, the
debugger-wait setting and the failure oracle, the only outgoing call of
`loom_tick` is one `loom_thread_sleep(30)`, and the only other effect is the
update of `gLoomPaused` (set to 1 if it was 0). -/
theorem loom_tick_disabled_only_sleeps (t : Call → Bool) (f : Frame) (p : Int)
    (h : f.gLoomTicking < 1) :
    (loom_tick t f p).calls = [Call.loom_thread_sleep 30] ∧
      (loom_tick t f p).gLoomPaused = (if p = 0 then 1 else p) := by
  simp [loom_tick, h, invoke, Run.start]

theorem loom_tick_disabled_only_sleeps_witness :
    (loom_tick allReturn ⟨0, true, false, some 4, 1, some 9⟩ 0).calls
        = [Call.loom_thread_sleep 30] ∧
      (loom_tick allReturn ⟨0, true, false, some 4, 1, some 9⟩ 0).gLoomPaused
        = (if (0 : Int) = 0 then 1 else 0) :=
  loom_tick_disabled_only_sleeps allReturn ⟨0, true, false, some 4, 1, some 9⟩ 0 (by decide)

/-- C2: over a non-empty sequence of consecutive invocations that all observe
ticking disabled, started from any value `gLoomPaused` can hold (the value
left by any history of invocations from the initial 0, that is, 0 or 1),
`gLoomPaused` is 1 after the first invocation and after each later one; and
an invocation turns a non-zero `gLoomPaused` into 0 only if it observes
ticking enabled. -/
theorem paused_during_disabled_run (hist fs : List Invocation)
    (hall : ∀ i ∈ fs, i.2.gLoomTicking < 1) :
    (∀ k, 0 < k → k ≤ fs.length →
        pausedAfter (pausedAfter 0 hist) (fs.take k) = 1) ∧
      (∀ p : Int, p = 0 ∨ p = 1 →
        ∀ k, 0 < k → k ≤ fs.length → pausedAfter p (fs.take k) = 1) ∧
      (∀ (t : Call → Bool) (f : Frame) (q : Int),
        q ≠ 0 → (loom_tick t f q).gLoomPaused = 0 → 1 ≤ f.gLoomTicking) := by
  have key : ∀ p : Int, p = 0 ∨ p = 1 →
      ∀ k, 0 < k → k ≤ fs.length → pausedAfter p (fs.take k) = 1 := by
    intro p hp k hk hle
    have hstep : pausedAfter p (fs.take k) = (if p = 0 then 1 else p) := by
      apply pausedAfter_disabled
      · intro i hi
        exact hall i (List.mem_of_mem_take hi)
      · intro hnil
        have hlen : (fs.take k).length = k := by
          rw [List.length_take]
          omega
        rw [hnil] at hlen
        simp at hlen
        omega
    rw [hstep]
    rcases hp with hp | hp <;> simp [hp]
  refine ⟨?_, key, ?_⟩
  · intro k hk hle
    exact key _ (pausedAfter_flag hist) k hk hle
  · intro t f q hq hz
    rw [loom_tick_paused] at hz
    by_contra hlt
    have hlt2 : f.gLoomTicking < 1 := by omega
    simp [hlt2, hq] at hz

theorem paused_during_disabled_run_witness :
    pausedAfter (pausedAfter 0 []) (List.take 1
        [((allReturn, ⟨0, false, false, none, 0, none⟩) : Invocation),
          (allReturn, ⟨-3, true, true, some 1, 0, none⟩)]) = 1 ∧
      pausedAfter (pausedAfter 0 []) (List.take 2
        [((allReturn, ⟨0, false, false, none, 0, none⟩) : Invocation),
          (allReturn, ⟨-3, true, true, some 1, 0, none⟩)]) = 1 :=
  ⟨(paused_during_disabled_run []
        [(allReturn, ⟨0, false, false, none, 0, none⟩),
          (allReturn, ⟨-3, true, true, some 1, 0, none⟩)]
        (by
          intro i hi
          simp only [List.mem_cons, List.mem_singleton, List.not_mem_nil, or_false] at hi
          rcases hi with hi | hi <;> subst hi <;> decide)).1 1 (by decide) (by decide),
    (paused_during_disabled_run []
        [(allReturn, ⟨0, false, false, none, 0, none⟩),
          (allReturn, ⟨-3, true, true, some 1, 0, none⟩)]
        (by
          intro i hi
          simp only [List.mem_cons, List.mem_singleton, List.not_mem_nil, or_false] at hi
          rcases hi with hi | hi <;> subst hi <;> decide)).1 2 (by decide) (by decide)⟩

/-- C3: started from `gLoomPaused = 0`, after every invocation of every
sequence of invocations (each with its own value of `gLoomTicking` and its
own failure oracle) `gLoomPaused` is 1 if that invocation observed
`gLoomTicking < 1` and 0 if it observed `gLoomTicking >= 1`; and an
invocation that observes ticking enabled leaves 0 whatever the value was
before. -/
theorem paused_tracks_last_invocation (earlier : List Invocation) (t : Call → Bool)
    (f : Frame) (q : Int) :
    pausedAfter 0 (earlier ++ [(t, f)]) = (if f.gLoomTicking < 1 then 1 else 0) ∧
      (loom_tick t f q).gLoomPaused
        = (if f.gLoomTicking < 1 then (if q = 0 then 1 else q) else 0) := by
  refine ⟨?_, loom_tick_paused t f q⟩
  rw [pausedAfter_append]
  simp only [pausedAfter, loom_tick_paused]
  rcases pausedAfter_flag earlier with h | h <;> rw [h] <;> simp

/-! ## The frame -/

/-- C4: with ticking enabled, no reload queued, a non-null root VM, the
debugger-wait setting 0 and a non-null main stage, the outgoing calls of
`loom_tick`, the profiling calls and the time read aside, are exactly
`markMainThread`, `executeDeferredCalls(vm)`, `performance_tick`,
`ticks.invoke`, `loom_asset_pump`, `loom_net_pump`, `platform_HTTPUpdate`,
`Texture::tick`, `invokeRenderStage`, each once and in this order; there is no
debugger-update call. -/
theorem normal_frame_call_order (tk : Int) (v s : Nat) (p : Int) (h : 1 ≤ tk) :
    collaboratorCalls (loom_tick allReturn ⟨tk, false, false, some v, 0, some s⟩ p).calls
        = [Call.markMainThread, Call.executeDeferredCalls (some v), Call.performance_tick,
            Call.ticks_invoke, Call.loom_asset_pump, Call.loom_net_pump,
            Call.platform_HTTPUpdate, Call.Texture_tick, Call.invokeRenderStage (some s)] ∧
      (∀ c ∈ (loom_tick allReturn ⟨tk, false, false, some v, 0, some s⟩ p).calls,
        c.isInvokeStatic = false) := by
  have hlt : ¬ tk < 1 := by omega
  simp [loom_tick, hlt, invoke, Run.start, allReturn, collaboratorCalls,
    Call.isProfiling, Call.isInvokeStatic, List.filter]

theorem normal_frame_call_order_witness :
    collaboratorCalls (loom_tick allReturn ⟨1, false, false, some 7, 0, some 3⟩ 0).calls
        = [Call.markMainThread, Call.executeDeferredCalls (some 7), Call.performance_tick,
            Call.ticks_invoke, Call.loom_asset_pump, Call.loom_net_pump,
            Call.platform_HTTPUpdate, Call.Texture_tick, Call.invokeRenderStage (some 3)] :=
  (normal_frame_call_order 1 7 3 0 (by decide)).1

/-- C5: with ticking enabled, no reload queued and a non-null root VM, the call
`invokeStaticMethod("system.debugger.DebuggerClient", "update")` is made if and
only if the debugger-wait value is greater than 0; when it is made it is the
only `invokeStaticMethod` call of the frame and stands immediately before the
single `ticks.invoke`, never after it. -/
theorem debugger_update_iff_wait (tk : Int) (v : Nat) (w : Int) (st : StagePtr) (p : Int)
    (h : 1 ≤ tk) :
    (debuggerUpdate (some v) ∈ (loom_tick allReturn ⟨tk, false, false, some v, w, st⟩ p).calls
        ↔ 0 < w) ∧
      (loom_tick allReturn ⟨tk, false, false, some v, w, st⟩ p).calls.countP Call.isInvokeStatic
        = (if 0 < w then 1 else 0) ∧
      (loom_tick allReturn ⟨tk, false, false, some v, w, st⟩ p).calls.count Call.ticks_invoke
        = 1 ∧
      (0 < w → ∃ before after,
        (loom_tick allReturn ⟨tk, false, false, some v, w, st⟩ p).calls
            = before ++ debuggerUpdate (some v) :: Call.ticks_invoke :: after ∧
          Call.ticks_invoke ∉ before ∧ Call.ticks_invoke ∉ after ∧
          (∀ c ∈ before ++ after, c.isInvokeStatic = false)) := by
  have hlt : ¬ tk < 1 := by omega
  by_cases hw : 0 < w
  · refine ⟨?_, ?_, ?_, ?_⟩
    · cases st <;>
        simp [loom_tick, hlt, hw, invoke, Run.start, allReturn, debuggerUpdate]
    · cases st <;>
        simp [loom_tick, hlt, hw, invoke, Run.start, allReturn, Call.isInvokeStatic,
          List.countP_cons]
    · cases st <;>
        simp [loom_tick, hlt, hw, invoke, Run.start, allReturn, List.count_cons]
    · intro _
      refine ⟨[Call.LOOM_PROFILE_START, Call.markMainThread,
          Call.executeDeferredCalls (some v), Call.performance_tick,
          Call.platform_getMilliseconds],
        [Call.loom_asset_pump, Call.loom_net_pump, Call.platform_HTTPUpdate,
          Call.Texture_tick] ++
          (if st.isSome then [Call.invokeRenderStage st] else []) ++
          [Call.finishProfilerBlock, Call.LOOM_PROFILE_END], ?_, ?_, ?_, ?_⟩
      · cases st <;>
          simp [loom_tick, hlt, hw, invoke, Run.start, allReturn, debuggerUpdate]
      · simp
      · cases st <;> simp
      · cases st <;> simp [Call.isInvokeStatic]
  · refine ⟨?_, ?_, ?_, ?_⟩
    · cases st <;>
        simp [loom_tick, hlt, hw, invoke, Run.start, allReturn, debuggerUpdate]
    · cases st <;>
        simp [loom_tick, hlt, hw, invoke, Run.start, allReturn, Call.isInvokeStatic,
          List.countP_cons]
    · cases st <;>
        simp [loom_tick, hlt, hw, invoke, Run.start, allReturn, List.count_cons]
    · intro hw2
      exact absurd hw2 hw

theorem debugger_update_iff_wait_witness :
    (debuggerUpdate (some 7) ∈ (loom_tick allReturn ⟨1, false, false, some 7, 2, none⟩ 0).calls
        ↔ (0 : Int) < 2) ∧
      ∃ before after,
        (loom_tick allReturn ⟨1, false, false, some 7, 2, none⟩ 0).calls
            = before ++ debuggerUpdate (some 7) :: Call.ticks_invoke :: after ∧
          Call.ticks_invoke ∉ before ∧ Call.ticks_invoke ∉ after ∧
          (∀ c ∈ before ++ after, c.isInvokeStatic = false) :=
  ⟨(debugger_update_iff_wait 1 7 2 none 0 (by decide)).1,
    (debugger_update_iff_wait 1 7 2 none 0 (by decide)).2.2.2 (by decide)⟩

/-- C6, as stated, fails: with ticking enabled, a reload queued and a null main
stage, the frame makes no stage render call at all, not exactly one. -/
theorem reload_frame_null_stage_no_render :
    (1 : Int) ≤ (Frame.mk 1 true true (some 7) 0 none).gLoomTicking ∧
      (Frame.mk 1 true true (some 7) 0 none).reloadQueuedAtResolve = true ∧
      (Frame.mk 1 true true (some 7) 0 none).reloadQueuedAtBranch = true ∧
      (loom_tick allReturn ⟨1, true, true, some 7, 0, none⟩ 0).calls
        = [Call.LOOM_PROFILE_START, Call.markMainThread, Call.performance_tick,
            Call.platform_getMilliseconds, Call.reloadMainAssembly, Call.loom_asset_pump,
            Call.loom_net_pump, Call.platform_HTTPUpdate, Call.Texture_tick,
            Call.finishProfilerBlock, Call.LOOM_PROFILE_END] ∧
      (loom_tick allReturn ⟨1, true, true, some 7, 0, none⟩ 0).calls.countP Call.isRender ≠ 1 := by
  simp [loom_tick, invoke, Run.start, allReturn, Call.isRender, List.countP_cons]

/-- C6, amended: with ticking enabled and a reload queued, for every root VM,
main stage and debugger-wait setting, neither the debugger-update call (nor
any `invokeStaticMethod`) nor `ticks.invoke` nor `executeDeferredCalls` is
made, `reloadMainAssembly` is made once, `loom_asset_pump`, `loom_net_pump`,
`platform_HTTPUpdate` and `Texture::tick` are each made exactly once, and the
stage render call is made exactly once if the main stage is non-null and not
at all if it is null. -/
theorem reload_frame_calls (tk : Int) (vm : LSLuaStatePtr) (w : Int) (st : StagePtr) (p : Int)
    (h : 1 ≤ tk) :
    (loom_tick allReturn ⟨tk, true, true, vm, w, st⟩ p).calls.countP Call.isInvokeStatic = 0 ∧
      (loom_tick allReturn ⟨tk, true, true, vm, w, st⟩ p).calls.count Call.ticks_invoke = 0 ∧
      (loom_tick allReturn ⟨tk, true, true, vm, w, st⟩ p).calls.countP Call.isExecuteDeferred = 0 ∧
      (loom_tick allReturn ⟨tk, true, true, vm, w, st⟩ p).calls.count Call.reloadMainAssembly = 1 ∧
      (loom_tick allReturn ⟨tk, true, true, vm, w, st⟩ p).calls.count Call.loom_asset_pump = 1 ∧
      (loom_tick allReturn ⟨tk, true, true, vm, w, st⟩ p).calls.count Call.loom_net_pump = 1 ∧
      (loom_tick allReturn ⟨tk, true, true, vm, w, st⟩ p).calls.count Call.platform_HTTPUpdate = 1 ∧
      (loom_tick allReturn ⟨tk, true, true, vm, w, st⟩ p).calls.count Call.Texture_tick = 1 ∧
      (loom_tick allReturn ⟨tk, true, true, vm, w, st⟩ p).calls.countP Call.isRender
        = (if st.isSome then 1 else 0) ∧
      (loom_tick allReturn ⟨tk, true, true, vm, w, st⟩ p).calls.count (Call.invokeRenderStage st)
        = (if st.isSome then 1 else 0) := by
  have hlt : ¬ tk < 1 := by omega
  cases st <;>
    simp [loom_tick, hlt, invoke, Run.start, allReturn, Call.isInvokeStatic,
      Call.isExecuteDeferred, Call.isRender, List.countP_cons, List.count_cons]

theorem reload_frame_calls_witness :
    (loom_tick allReturn ⟨1, true, true, some 7, 1, some 3⟩ 0).calls.count Call.reloadMainAssembly
        = 1 ∧
      (loom_tick allReturn ⟨1, true, true, some 7, 1, some 3⟩ 0).calls.countP Call.isRender
        = (if (some 3 : StagePtr).isSome then 1 else 0) :=
  ⟨(reload_frame_calls 1 (some 7) 1 (some 3) 0 (by decide)).2.2.2.1,
    (reload_frame_calls 1 (some 7) 1 (some 3) 0 (by decide)).2.2.2.2.2.2.2.2.1⟩

/-- C7: with ticking enabled, a null root VM and no reload queued, for every
main stage and debugger-wait setting, `executeDeferredCalls`, the
debugger-update call, `ticks.invoke` and `reloadMainAssembly` are not made and
no call goes through a null pointer, while `markMainThread`,
`performance_tick`, `loom_asset_pump`, `loom_net_pump`, `platform_HTTPUpdate`
and `Texture::tick` are each made exactly once. -/
theorem null_vm_frame_calls (tk : Int) (w : Int) (st : StagePtr) (p : Int) (h : 1 ≤ tk) :
    (loom_tick allReturn ⟨tk, false, false, none, w, st⟩ p).calls.countP Call.isExecuteDeferred
        = 0 ∧
      (loom_tick allReturn ⟨tk, false, false, none, w, st⟩ p).calls.countP Call.isInvokeStatic
        = 0 ∧
      (loom_tick allReturn ⟨tk, false, false, none, w, st⟩ p).calls.count Call.ticks_invoke = 0 ∧
      (loom_tick allReturn ⟨tk, false, false, none, w, st⟩ p).calls.count Call.reloadMainAssembly
        = 0 ∧
      (∀ c ∈ (loom_tick allReturn ⟨tk, false, false, none, w, st⟩ p).calls,
        c.derefsNull = false) ∧
      (loom_tick allReturn ⟨tk, false, false, none, w, st⟩ p).calls.count Call.markMainThread = 1 ∧
      (loom_tick allReturn ⟨tk, false, false, none, w, st⟩ p).calls.count Call.performance_tick
        = 1 ∧
      (loom_tick allReturn ⟨tk, false, false, none, w, st⟩ p).calls.count Call.loom_asset_pump
        = 1 ∧
      (loom_tick allReturn ⟨tk, false, false, none, w, st⟩ p).calls.count Call.loom_net_pump = 1 ∧
      (loom_tick allReturn ⟨tk, false, false, none, w, st⟩ p).calls.count Call.platform_HTTPUpdate
        = 1 ∧
      (loom_tick allReturn ⟨tk, false, false, none, w, st⟩ p).calls.count Call.Texture_tick = 1 := by
  have hlt : ¬ tk < 1 := by omega
  cases st <;>
    simp [loom_tick, hlt, invoke, Run.start, allReturn, Call.isInvokeStatic,
      Call.isExecuteDeferred, Call.derefsNull, List.countP_cons, List.count_cons]

theorem null_vm_frame_calls_witness :
    (loom_tick allReturn ⟨1, false, false, none, 5, some 3⟩ 1).calls.countP Call.isExecuteDeferred
        = 0 ∧
      (loom_tick allReturn ⟨1, false, false, none, 5, some 3⟩ 1).calls.count Call.markMainThread
        = 1 :=
  ⟨(null_vm_frame_calls 1 5 (some 3) 1 (by decide)).1,
    (null_vm_frame_calls 1 5 (some 3) 1 (by decide)).2.2.2.2.2.1⟩

/-- C9: with ticking enabled, whichever branch is taken, the frame ends with
`loom_asset_pump`, `loom_net_pump`, `platform_HTTPUpdate`, `Texture::tick` in
this order, each once, then `invokeRenderStage` once if the main stage is
non-null and no render call if it is null, then the two profiling closures;
what precedes holds no pump, render or closing call, and what follows the
branch holds no VM, reload or deferred-call operation. -/
theorem pumps_then_render_close_frame (f : Frame) (p : Int) (h : 1 ≤ f.gLoomTicking) :
    ∃ before,
      (loom_tick allReturn f p).calls
          = before ++
            ([Call.loom_asset_pump, Call.loom_net_pump, Call.platform_HTTPUpdate,
                Call.Texture_tick] ++
              (if f.smMainStage.isSome then [Call.invokeRenderStage f.smMainStage] else []) ++
              [Call.finishProfilerBlock, Call.LOOM_PROFILE_END]) ∧
        (∀ c ∈ before, c.isPump = false ∧ c.isRender = false ∧
          c ≠ Call.finishProfilerBlock ∧ c ≠ Call.LOOM_PROFILE_END) ∧
        (∀ c ∈ [Call.loom_asset_pump, Call.loom_net_pump, Call.platform_HTTPUpdate,
                Call.Texture_tick] ++
              (if f.smMainStage.isSome then [Call.invokeRenderStage f.smMainStage] else []) ++
              [Call.finishProfilerBlock, Call.LOOM_PROFILE_END], c.isVMOp = false) := by
  obtain ⟨tk, rq1, rq2, vm, w, st⟩ := f
  have hlt : ¬ tk < 1 := by
    simp only at h
    omega
  refine ⟨(loom_tick allReturn ⟨tk, rq1, rq2, vm, w, none⟩ p).calls.take
      ((loom_tick allReturn ⟨tk, rq1, rq2, vm, w, none⟩ p).calls.length - 6), ?_, ?_, ?_⟩
  · by_cases hw : w > 0 <;> cases rq1 <;> cases rq2 <;> cases vm <;> cases st <;>
      simp [loom_tick, hlt, hw, invoke, Run.start, allReturn]
  · by_cases hw : w > 0 <;> cases rq1 <;> cases rq2 <;> cases vm <;>
      simp [loom_tick, hlt, hw, invoke, Run.start, allReturn, Call.isPump, Call.isRender]
  · cases st <;> simp [Call.isVMOp]

theorem pumps_then_render_close_frame_witness :
    ∃ before,
      (loom_tick allReturn ⟨1, false, true, some 7, 1, some 3⟩ 0).calls
          = before ++
            ([Call.loom_asset_pump, Call.loom_net_pump, Call.platform_HTTPUpdate,
                Call.Texture_tick] ++
              (if (some 3 : StagePtr).isSome then [Call.invokeRenderStage (some 3)] else []) ++
              [Call.finishProfilerBlock, Call.LOOM_PROFILE_END]) ∧
        (∀ c ∈ before, c.isPump = false ∧ c.isRender = false ∧
          c ≠ Call.finishProfilerBlock ∧ c ≠ Call.LOOM_PROFILE_END) ∧
        (∀ c ∈ [Call.loom_asset_pump, Call.loom_net_pump, Call.platform_HTTPUpdate,
                Call.Texture_tick] ++
              (if (some 3 : StagePtr).isSome then [Call.invokeRenderStage (some 3)] else []) ++
              [Call.finishProfilerBlock, Call.LOOM_PROFILE_END], c.isVMOp = false) :=
  pumps_then_render_close_frame ⟨1, false, true, some 7, 1, some 3⟩ 0 (by decide)

/-! ## Profiling bracket and failures -/

/-- C8, as stated, fails: when `ticks.invoke` raises a failure, the frame has
opened the profiling scope once and leaves without closing it and without
finishing the profiler block. -/
theorem failing_tick_leaves_scope_open :
    (loom_tick (fun c => decide (c = Call.ticks_invoke))
        ⟨1, false, false, some 7, 0, some 3⟩ 0).raised = true ∧
      (loom_tick (fun c => decide (c = Call.ticks_invoke))
        ⟨1, false, false, some 7, 0, some 3⟩ 0).calls
        = [Call.LOOM_PROFILE_START, Call.markMainThread, Call.executeDeferredCalls (some 7),
            Call.performance_tick, Call.platform_getMilliseconds, Call.ticks_invoke] ∧
      (loom_tick (fun c => decide (c = Call.ticks_invoke))
        ⟨1, false, false, some 7, 0, some 3⟩ 0).calls.count Call.LOOM_PROFILE_START = 1 ∧
      (loom_tick (fun c => decide (c = Call.ticks_invoke))
        ⟨1, false, false, some 7, 0, some 3⟩ 0).calls.count Call.LOOM_PROFILE_END = 0 ∧
      (loom_tick (fun c => decide (c = Call.ticks_invoke))
        ⟨1, false, false, some 7, 0, some 3⟩ 0).calls.count Call.finishProfilerBlock = 0 := by
  simp [loom_tick, invoke, Run.start, List.count_cons]

/-- C8, amended: in every invocation that no failure leaves (in particular
when every outgoing call returns), `LOOM_PROFILE_START` and `LOOM_PROFILE_END`
are called equally often and `finishProfilerBlock` is called once for each
opened scope; in an invocation with ticking enabled that a failure of a call
before `LOOM_PROFILE_END` leaves, the scope was opened once and is not
closed. -/
theorem profiling_balanced_unless_failure (t : Call → Bool) (f : Frame) (p : Int) :
    (loom_tick allReturn f p).raised = false ∧
      ((loom_tick t f p).raised = false →
        (loom_tick t f p).calls.count Call.LOOM_PROFILE_START
            = (loom_tick t f p).calls.count Call.LOOM_PROFILE_END ∧
          (loom_tick t f p).calls.count Call.finishProfilerBlock
            = (loom_tick t f p).calls.count Call.LOOM_PROFILE_START) ∧
      ((loom_tick t f p).raised = true → 1 ≤ f.gLoomTicking → t Call.LOOM_PROFILE_END = false →
        (loom_tick t f p).calls.count Call.LOOM_PROFILE_START = 1 ∧
          (loom_tick t f p).calls.count Call.LOOM_PROFILE_END = 0) := by
  have close : ∀ r : Run, r.calls.count Call.LOOM_PROFILE_START = 1 →
      r.calls.count Call.finishProfilerBlock = 0 → r.calls.count Call.LOOM_PROFILE_END = 0 →
      ((invoke t Call.LOOM_PROFILE_END (invoke t Call.finishProfilerBlock r)).raised = false →
        (invoke t Call.LOOM_PROFILE_END (invoke t Call.finishProfilerBlock r)).calls.count
              Call.LOOM_PROFILE_START
            = (invoke t Call.LOOM_PROFILE_END (invoke t Call.finishProfilerBlock r)).calls.count
              Call.LOOM_PROFILE_END ∧
          (invoke t Call.LOOM_PROFILE_END (invoke t Call.finishProfilerBlock r)).calls.count
              Call.finishProfilerBlock
            = (invoke t Call.LOOM_PROFILE_END (invoke t Call.finishProfilerBlock r)).calls.count
              Call.LOOM_PROFILE_START) ∧
      ((invoke t Call.LOOM_PROFILE_END (invoke t Call.finishProfilerBlock r)).raised = true →
        t Call.LOOM_PROFILE_END = false →
        (invoke t Call.LOOM_PROFILE_END (invoke t Call.finishProfilerBlock r)).calls.count
              Call.LOOM_PROFILE_START = 1 ∧
          (invoke t Call.LOOM_PROFILE_END (invoke t Call.finishProfilerBlock r)).calls.count
              Call.LOOM_PROFILE_END = 0) := by
    intro r h1 h2 h3
    simp only [count_invoke, invoke_raised, h1, h2, h3]
    cases hr : r.raised <;> cases hf : t Call.finishProfilerBlock <;>
      cases he : t Call.LOOM_PROFILE_END <;> simp
  obtain ⟨tk, rq1, rq2, vm, w, st⟩ := f
  by_cases hlt : tk < 1
  · refine ⟨?_, ?_, ?_⟩
    · simp [loom_tick, hlt, invoke_raised, Run.start, allReturn]
    · intro _
      simp [loom_tick, hlt, count_invoke, Run.start]
    · intro _ hge
      simp only at hge
      omega
  · refine ⟨?_, ?_⟩
    · cases rq1 <;> cases rq2 <;> cases vm <;> cases st <;>
        simp [loom_tick, hlt, invoke_raised, Run.start, allReturn, apply_ite]
    · simp only [loom_tick, if_neg hlt]
      refine ⟨fun hr => (close _ ?_ ?_ ?_).1 hr, fun hr _ he => (close _ ?_ ?_ ?_).2 hr he⟩ <;>
        cases rq1 <;> cases rq2 <;> cases vm <;> cases st <;>
        simp [count_invoke, Run.start, apply_ite]

theorem profiling_balanced_unless_failure_witness :
    ((loom_tick allReturn ⟨1, false, false, some 7, 1, some 3⟩ 0).calls.count
            Call.LOOM_PROFILE_START
          = (loom_tick allReturn ⟨1, false, false, some 7, 1, some 3⟩ 0).calls.count
            Call.LOOM_PROFILE_END ∧
        (loom_tick allReturn ⟨1, false, false, some 7, 1, some 3⟩ 0).calls.count
            Call.finishProfilerBlock
          = (loom_tick allReturn ⟨1, false, false, some 7, 1, some 3⟩ 0).calls.count
            Call.LOOM_PROFILE_START) ∧
      ((loom_tick (fun c => decide (c = Call.loom_net_pump))
            ⟨1, false, false, some 7, 1, some 3⟩ 0).calls.count Call.LOOM_PROFILE_START = 1 ∧
        (loom_tick (fun c => decide (c = Call.loom_net_pump))
            ⟨1, false, false, some 7, 1, some 3⟩ 0).calls.count Call.LOOM_PROFILE_END = 0) :=
  ⟨(profiling_balanced_unless_failure allReturn ⟨1, false, false, some 7, 1, some 3⟩ 0).2.1
      (by simp [loom_tick, invoke, Run.start, allReturn]),
    (profiling_balanced_unless_failure (fun c => decide (c = Call.loom_net_pump))
        ⟨1, false, false, some 7, 1, some 3⟩ 0).2.2
      (by simp [loom_tick, invoke, Run.start]) (by decide) (by simp)⟩

/-! ## The two reads of the reload flag -/

/-- C10, as stated, fails: when the reload flag reads false as `vm` is resolved
and true at the reload branch, with a non-null root VM, one frame both drains
the deferred calls into the VM and reloads the main assembly. -/
theorem drain_and_reload_in_one_frame :
    (loom_tick allReturn ⟨1, false, true, some 7, 0, none⟩ 0).calls
        = [Call.LOOM_PROFILE_START, Call.markMainThread, Call.executeDeferredCalls (some 7),
            Call.performance_tick, Call.platform_getMilliseconds, Call.reloadMainAssembly,
            Call.loom_asset_pump, Call.loom_net_pump, Call.platform_HTTPUpdate,
            Call.Texture_tick, Call.finishProfilerBlock, Call.LOOM_PROFILE_END] ∧
      Call.executeDeferredCalls (some 7)
        ∈ (loom_tick allReturn ⟨1, false, true, some 7, 0, none⟩ 0).calls ∧
      Call.reloadMainAssembly
        ∈ (loom_tick allReturn ⟨1, false, true, some 7, 0, none⟩ 0).calls := by
  simp [loom_tick, invoke, Run.start, allReturn]

/-- C10, amended: a frame in which both reads of the reload flag return the same
value never both drains deferred calls into a VM and reloads the main
assembly, whatever fails; the two reads are separate observations, and a
frame with ticking enabled in which the flag reads false as `vm` is resolved
and true at the reload branch, with a non-null root VM, does both. -/
theorem drain_and_reload_only_on_flag_change (t : Call → Bool) (f : Frame) (p : Int) :
    (f.reloadQueuedAtResolve = f.reloadQueuedAtBranch →
        ¬ ((∃ c ∈ (loom_tick t f p).calls, c.isExecuteDeferred = true) ∧
          Call.reloadMainAssembly ∈ (loom_tick t f p).calls)) ∧
      (1 ≤ f.gLoomTicking → f.reloadQueuedAtResolve = false → f.reloadQueuedAtBranch = true →
        f.getRootVM.isSome = true →
        Call.executeDeferredCalls f.getRootVM ∈ (loom_tick allReturn f p).calls ∧
          Call.reloadMainAssembly ∈ (loom_tick allReturn f p).calls) := by
  obtain ⟨tk, rq1, rq2, vm, w, st⟩ := f
  refine ⟨?_, ?_⟩
  · intro heq
    simp only at heq
    subst heq
    by_cases hlt : tk < 1
    · simp [loom_tick, hlt, mem_invoke, Run.start, Call.isExecuteDeferred]
    · cases rq1
      · intro hboth
        have hre : 0 < (loom_tick t ⟨tk, false, false, vm, w, st⟩ p).calls.count
            Call.reloadMainAssembly := List.count_pos_iff.mpr hboth.2
        revert hre
        by_cases hw : w > 0 <;> cases vm <;> cases st <;>
          simp [loom_tick, hlt, hw, count_invoke, Run.start]
      · intro hboth
        have hex : 0 < (loom_tick t ⟨tk, true, true, vm, w, st⟩ p).calls.countP
            Call.isExecuteDeferred := List.countP_pos_iff.mpr hboth.1
        revert hex
        cases st <;>
          simp [loom_tick, hlt, countP_invoke, Run.start, Call.isExecuteDeferred]
  · intro hge h1 h2 hvm
    simp only at hge h1 h2 hvm
    subst h1 h2
    have hlt : ¬ tk < 1 := by omega
    cases vm
    · simp at hvm
    · cases st <;> simp [loom_tick, hlt, invoke, Run.start, allReturn]

theorem drain_and_reload_only_on_flag_change_witness :
    ¬ ((∃ c ∈ (loom_tick allReturn ⟨1, true, true, some 7, 0, none⟩ 0).calls,
          c.isExecuteDeferred = true) ∧
        Call.reloadMainAssembly ∈ (loom_tick allReturn ⟨1, true, true, some 7, 0, none⟩ 0).calls) ∧
      (Call.executeDeferredCalls (some 7)
          ∈ (loom_tick allReturn ⟨1, false, true, some 7, 0, some 3⟩ 0).calls ∧
        Call.reloadMainAssembly
          ∈ (loom_tick allReturn ⟨1, false, true, some 7, 0, some 3⟩ 0).calls) :=
  ⟨(drain_and_reload_only_on_flag_change allReturn ⟨1, true, true, some 7, 0, none⟩ 0).1 rfl,
    (drain_and_reload_only_on_flag_change allReturn ⟨1, false, true, some 7, 0, some 3⟩ 0).2
      (by decide) rfl rfl rfl⟩

end Loom
